import Mathlib

/-!
Verification of the BudapestAgent core loop (agent.py, app.py).

The Python source is shallowly embedded:
* LangChain messages become the `Message` structure (the `role` discriminant
  stands for the Python class: HumanMessage, AIMessage, ToolMessage,
  SystemMessage; `hasattr(msg, "tool_calls")` holds exactly for AIMessage,
  i.e. `role = .assistant`).
* The LangGraph `StateGraph` of `Agent.__init__` becomes the step relation
  `runGraph` over the four nodes reason / llm / action / finalize, with the
  `recursion_limit` as explicit fuel; exceeding it is the `GraphErr.recursion`
  error, mirroring langgraph's GraphRecursionError.
* LLM calls (`self.reason_model.invoke`, `self.model.invoke`,
  `self.finalize_model.invoke`) are opaque oracles, passed in as the
  `Oracles` record of total functions from the message list they receive.
* `Annotated[list, operator.add]` channels (messages, tool_history) merge by
  list concatenation in `applyUpdate`; the remaining TypedDict fields are
  last-value channels.  Nodes that mutate `state['messages']` or
  `state['tool_history']` in place before returning (list aliasing in
  Python) are modelled as returning both the mutated base state and the
  update dict.
* HTTP calls of the tool functions (`requests.get`) are opaque functions
  from the request parameters to a response.
-/

/-! ## Strings: Python `str.lower` and the `in` operator -/

/-- Python `str.lower()` restricted to its ASCII action, applied
characterwise to the string's characters. -/
def pyLower (s : String) : String := ⟨s.data.map Char.toLower⟩

/-- Does `l` start with `p`?  (Helper for the Python `in` operator.) -/
def listStartsWith [DecidableEq α] : List α → List α → Bool
  | _, [] => true
  | [], _ :: _ => false
  | a :: l, b :: p => a = b && listStartsWith l p

/-- Does `needle` occur as a contiguous sublist of `hay`? -/
def hasSub [DecidableEq α] : List α → List α → Bool
  | [], needle => needle.isEmpty
  | a :: l, needle => listStartsWith (a :: l) needle || hasSub l needle

/-- Python `needle in hay` on strings. -/
def pyInStr (needle hay : String) : Bool := hasSub hay.data needle.data

theorem hasSub_append_right [DecidableEq α] (l₁ l₂ needle : List α)
    (h : hasSub l₂ needle = true) : hasSub (l₁ ++ l₂) needle = true := by
  induction l₁ with
  | nil => simpa using h
  | cons a l ih =>
    cases l₂ with
    | nil =>
      simp only [hasSub, List.isEmpty_iff] at h
      subst h
      cases l <;> simp [hasSub, listStartsWith]
    | cons b m =>
      simp only [List.cons_append, hasSub, Bool.or_eq_true]
      exact Or.inr (by simpa using ih)

/-! ## JSON-ish scalar values

The Places API fields carried through `get_local_attractions` (name, rating,
vicinity, open_now) hold strings, numbers or booleans; the Python code only
passes them along or substitutes a default string, so a small scalar sum
suffices. -/

inductive JVal where
  | s : String → JVal
  | n : Int → JVal
  | b : Bool → JVal
deriving DecidableEq, Repr

/-! ## get_directions (agent.py lines 56-79) -/

/-- The query parameters of the Directions request built by `get_directions`
(the `key` parameter, an ambient secret, is omitted). -/
structure DirectionsParams where
  origin : String
  destination : String
  mode : String
  language : String
  transit_mode : Option String
deriving DecidableEq, Repr

/-- Request building of `get_directions`: appends ", Budapest, Hungary" to
either endpoint when "budapest" does not occur case-insensitively in it, and
adds the transit_mode parameter exactly in transit mode. -/
def directionsParams (from_place to_place mode : String) : DirectionsParams :=
  let from2 := if pyInStr "budapest" (pyLower from_place) then from_place
               else from_place ++ ", Budapest, Hungary"
  let to2 := if pyInStr "budapest" (pyLower to_place) then to_place
             else to_place ++ ", Budapest, Hungary"
  { origin := from2
    destination := to2
    mode := mode
    language := "hu"
    transit_mode := if mode = "transit" then some "bus|subway|train|tram" else none }

/-- An HTTP response to the Directions request; the JSON body is carried
opaquely as its rendered text. -/
structure DirectionsResponse where
  status : Nat
  body : String

/-- `get_directions`: builds the parameters, performs the request through the
opaque `net`, returns the parsed body on HTTP 200 and the fixed error record
otherwise (`{"error": "Directions API failed"}` is modelled as `.error`). -/
def get_directions (net : DirectionsParams → DirectionsResponse)
    (from_place to_place mode : String) : Except String String :=
  let r := net (directionsParams from_place to_place mode)
  if r.status = 200 then .ok r.body else .error "Directions API failed"

/-! ## get_local_attractions (agent.py lines 81-117) -/

/-- The opening_hours sub-object of one Places result. -/
structure OpeningHoursJson where
  open_now : Option JVal
deriving DecidableEq, Repr

/-- One raw result of the Places API, with the fields the code reads;
`none` is a missing key. -/
structure PlaceJson where
  name : Option JVal
  rating : Option JVal
  vicinity : Option JVal
  opening_hours : Option OpeningHoursJson
deriving DecidableEq, Repr

/-- The parsed body of a Places response (`data.get("results", [])`). -/
structure PlacesResponse where
  status : Nat
  results : List PlaceJson

/-- The query parameters of the Places request (`key` omitted); `lat` and
`lng` are carried as the text they are rendered to in `f"{lat},{lng}"`. -/
structure PlacesParams where
  location : String
  radius : Nat
  placeType : String
  language : String
deriving DecidableEq, Repr

/-- The `category_map` dict of `get_local_attractions`. -/
def category_map : List (String × String) :=
  [("attractions", "tourist_attraction"), ("restaurants", "restaurant"),
   ("cafes", "cafe"), ("museums", "museum"), ("parks", "park"),
   ("shopping", "shopping_mall")]

/-- `category_map.get(category.lower(), category)`. -/
def lookupCategory (category : String) : String :=
  (category_map.lookup (pyLower category)).getD category

/-- Request building of `get_local_attractions`. -/
def placesParams (lat lng category : String) (radius : Nat) : PlacesParams :=
  { location := lat ++ "," ++ lng
    radius := radius
    placeType := lookupCategory category
    language := "hu" }

/-- One record of the returned `places` list. -/
structure PlaceOut where
  name : Option JVal
  rating : JVal
  address : Option JVal
  open_now : JVal
deriving DecidableEq, Repr

/-- The record built for one place: `place.get("name")`,
`place.get("rating", "N/A")`, `place.get("vicinity")`,
`place.get("opening_hours", {}).get("open_now", "unknown")`. -/
def mkPlaceOut (p : PlaceJson) : PlaceOut :=
  { name := p.name
    rating := p.rating.getD (JVal.s "N/A")
    address := p.vicinity
    open_now := ((p.opening_hours.getD ⟨none⟩).open_now).getD (JVal.s "unknown") }

/-- The dict returned by `get_local_attractions`: `{"places": ...}` on
success, `{"error": "Places API failed", "places": []}` on failure. -/
structure PlacesOut where
  error : Option String
  places : List PlaceOut
deriving DecidableEq, Repr

/-- `get_local_attractions`: on HTTP 200, the first 5 results are converted
with `mkPlaceOut`; otherwise the fixed error record with an empty list. -/
def get_local_attractions (net : PlacesParams → PlacesResponse)
    (lat lng category : String) (radius : Nat) : PlacesOut :=
  let res := net (placesParams lat lng category radius)
  if res.status = 200 then
    { error := none, places := (res.results.take 5).map mkPlaceOut }
  else
    { error := some "Places API failed", places := [] }

theorem getElem?_take_eq (l : List α) (n i : Nat) :
    (l.take n)[i]? = if i < n then l[i]? else none := by
  induction l generalizing n i with
  | nil => cases n <;> cases i <;> simp
  | cons a l ih =>
    cases n with
    | zero => simp
    | succ n =>
      cases i with
      | zero => simp
      | succ i => simpa [List.take_succ_cons, Nat.succ_lt_succ_iff] using ih n i

theorem pinned_endpoint (p : String) :
    pyInStr "budapest"
      (pyLower (if pyInStr "budapest" (pyLower p) then p
                else p ++ ", Budapest, Hungary")) = true := by
  by_cases h : pyInStr "budapest" (pyLower p) = true
  · simp [h]
  · simp only [h, Bool.false_eq_true, if_false]
    show hasSub ((p ++ ", Budapest, Hungary").data.map Char.toLower)
      ("budapest".data) = true
    rw [String.data_append, List.map_append]
    exact hasSub_append_right _ _ _ (by decide)

/-- Claim C9: `get_directions` appends ", Budapest, Hungary" to the origin
exactly when it does not already contain "budapest" case-insensitively, and
likewise for the destination; consequently both endpoints of every built
Directions query contain "budapest" case-insensitively. -/
theorem directions_budapest_pinned (from_place to_place mode : String) :
    (directionsParams from_place to_place mode).origin =
      (if pyInStr "budapest" (pyLower from_place) then from_place
       else from_place ++ ", Budapest, Hungary")
    ∧ (directionsParams from_place to_place mode).destination =
      (if pyInStr "budapest" (pyLower to_place) then to_place
       else to_place ++ ", Budapest, Hungary")
    ∧ pyInStr "budapest"
        (pyLower (directionsParams from_place to_place mode).origin) = true
    ∧ pyInStr "budapest"
        (pyLower (directionsParams from_place to_place mode).destination) = true :=
  ⟨rfl, rfl, pinned_endpoint from_place, pinned_endpoint to_place⟩

/-- Claim C8: on every HTTP 200 Places response `get_local_attractions`
returns at most 5 places, each converted by `mkPlaceOut` (rating defaulting
to "N/A", open_now defaulting to "unknown") in order; on every non-200
response it returns the error record with an empty places list. -/
theorem attractions_result_shape (net : PlacesParams → PlacesResponse)
    (lat lng category : String) (radius : Nat) :
    ((net (placesParams lat lng category radius)).status = 200 →
        (get_local_attractions net lat lng category radius).error = none
      ∧ (get_local_attractions net lat lng category radius).places.length ≤ 5
      ∧ ∀ i : Nat, (get_local_attractions net lat lng category radius).places[i]? =
          if i < 5 then ((net (placesParams lat lng category radius)).results[i]?).map mkPlaceOut
          else none)
    ∧ ((net (placesParams lat lng category radius)).status ≠ 200 →
        get_local_attractions net lat lng category radius =
          { error := some "Places API failed", places := [] }) := by
  constructor
  · intro h200
    refine ⟨?_, ?_, ?_⟩
    · simp [get_local_attractions, h200]
    · simp only [get_local_attractions, h200, if_true, List.length_map,
        List.length_take]
      exact Nat.min_le_left _ _
    · intro i
      simp only [get_local_attractions, h200, if_true, List.getElem?_map,
        getElem?_take_eq]
      by_cases hi : i < 5 <;> simp [hi]
  · intro hbad
    simp [get_local_attractions, if_neg hbad]

/-- A Places backend returning seven raw results with every optional field
missing, used to witness the 200 branch. -/
def placesNetOk : PlacesParams → PlacesResponse := fun _ =>
  { status := 200
    results := List.replicate 7 { name := some (JVal.s "X"), rating := none,
                                  vicinity := none, opening_hours := none } }

/-- A Places backend that fails with HTTP 500. -/
def placesNetBad : PlacesParams → PlacesResponse := fun _ =>
  { status := 500, results := [] }

theorem attractions_result_shape_witness :
    (get_local_attractions placesNetOk "47.5" "19.05" "museums" 1000).places.length ≤ 5
    ∧ (get_local_attractions placesNetOk "47.5" "19.05" "museums" 1000).places[0]? =
        some { name := some (JVal.s "X"), rating := JVal.s "N/A",
               address := none, open_now := JVal.s "unknown" }
    ∧ get_local_attractions placesNetBad "47.5" "19.05" "museums" 1000 =
        { error := some "Places API failed", places := [] } := by
  have hok := attractions_result_shape placesNetOk "47.5" "19.05" "museums" 1000
  have hbad := attractions_result_shape placesNetBad "47.5" "19.05" "museums" 1000
  refine ⟨(hok.1 rfl).2.1, ?_, hbad.2 (by decide)⟩
  have := (hok.1 rfl).2.2 0
  simpa [placesNetOk, mkPlaceOut] using this

/-! ## Messages and agent state (agent.py lines 217-224) -/

/-- The LangChain message class of a ledger entry. -/
inductive Role where
  | user
  | assistant
  | tool
  | system
deriving DecidableEq, Repr

/-- One tool call requested by an assistant message.  The arguments dict is
carried as the text it is rendered to by `str(...)`. -/
structure ToolCall where
  name : String
  args : String
  id : String
deriving DecidableEq, Repr

/-- One ledger entry.  `tool_calls` is non-trivial only on assistant
(AIMessage) entries; `tool_call_id` and `name` only on tool (ToolMessage)
entries. -/
structure Message where
  role : Role
  content : String
  tool_calls : List ToolCall
  tool_call_id : Option String
  name : Option String
deriving DecidableEq, Repr

/-- A HumanMessage. -/
def userMsg (content : String) : Message := ⟨.user, content, [], none, none⟩

/-- An AIMessage, with the tool calls the model attached. -/
def assistantMsg (content : String) (tool_calls : List ToolCall) : Message :=
  ⟨.assistant, content, tool_calls, none, none⟩

/-- A SystemMessage. -/
def systemMsg (content : String) : Message := ⟨.system, content, [], none, none⟩

/-- A ToolMessage: `ToolMessage(tool_call_id=t['id'], name=t['name'],
content=str(result))`. -/
def toolMsg (id name content : String) : Message :=
  ⟨.tool, content, [], some id, some name⟩

/-- One entry of the `tool_history` channel: `{'tool': ..., 'args': ...,
'result': ...}`, args and result as their `str(...)` renderings. -/
structure ToolRecord where
  tool : String
  args : String
  result : String
deriving DecidableEq, Repr

/-- The `AgentState` TypedDict. -/
structure AgentState where
  messages : List Message
  reasoning_output : Option String
  next_step : Option String
  tool_history : List ToolRecord
  has_used_tools : Option Bool
  user_query : Option String
deriving DecidableEq, Repr

/-- A state update returned by one node (the dict a node function returns);
every node of this agent returns all six keys. -/
structure StateUpdate where
  messages : List Message
  reasoning_output : Option String
  next_step : Option String
  tool_history : List ToolRecord
  has_used_tools : Option Bool
  user_query : Option String
deriving DecidableEq, Repr

/-- LangGraph channel merge: `messages` and `tool_history` are annotated with
`operator.add` and concatenate; the other four keys are last-value channels
and are replaced. -/
def applyUpdate (s : AgentState) (u : StateUpdate) : AgentState :=
  { messages := s.messages ++ u.messages
    reasoning_output := u.reasoning_output
    next_step := u.next_step
    tool_history := s.tool_history ++ u.tool_history
    has_used_tools := u.has_used_tools
    user_query := u.user_query }

/-- The content an AIMessage returned by `self.model.invoke` carries. -/
structure AIOut where
  content : String
  tool_calls : List ToolCall
deriving DecidableEq, Repr

/-- The three LLM endpoints of the agent, as opaque total functions of the
message list they are invoked on: `reason_model` and `finalize_model` return
plain text, `model` (bound to the tools) returns text plus tool calls. -/
structure Oracles where
  reasonO : List Message → String
  modelO : List Message → AIOut
  finalizeO : List Message → String

/-- The agent's construction data: the system prompt and the tool registry
`self.tools = {t.name: t for t in tools}`.  A handler takes the rendered
arguments and either returns the rendered result (`str(result)`) or raises,
modelled as `Except.error` carrying `str(e)`. -/
structure AgentCfg where
  system : String
  tools : String → Option (String → Except String String)

/-! ## Block extraction (the regexes of reason_about_request) -/

/-- The characters of `l` before the first occurrence of `needle`, `none`
when `needle` does not occur. -/
def beforeSub [DecidableEq α] : List α → List α → Option (List α)
  | [], needle => if needle.isEmpty then some [] else none
  | a :: l, needle =>
    if listStartsWith (a :: l) needle then some []
    else (beforeSub l needle).map (a :: ·)

/-- The characters of `l` after the first occurrence of `needle`, `none`
when `needle` does not occur. -/
def afterSub [DecidableEq α] : List α → List α → Option (List α)
  | [], needle => if needle.isEmpty then some [] else none
  | a :: l, needle =>
    if listStartsWith (a :: l) needle then some ((a :: l).drop needle.length)
    else afterSub l needle

/-- Model of `re.search(r'```tag\s*(.*?)\s*```', raw, re.DOTALL)` followed by
`.group(1).strip()`: the trimmed text between the first "```tag" and the
next "```". -/
def extractBlock (tag raw : String) : Option String :=
  match afterSub raw.data ("```" ++ tag).data with
  | none => none
  | some rest =>
    match beforeSub rest ("```" : String).data with
    | none => none
    | some content => some (String.trim ⟨content⟩)

/-! ## Prompt texts (abridged: each constant stands for the corresponding
string literal of agent.py; no claim depends on their exact wording) -/

/-- The reasoning system prompt of `reason_about_request`. -/
def reasoningSystem : String :=
  "You are a helpful assistant for Budapest tourism and transit information.\n" ++
  "Respond in the following format:\n```reasoning\n...\n```\n\n```decision\n...\n```\n"

/-- The suffix appended to the system prompt for a direct response. -/
def directSuffix : String :=
  "\nSince the question can be answered directly without tools, provide a " ++
  "helpful response based on general knowledge about Budapest.\n"

/-- The system text `call_openai` builds around the recorded reasoning. -/
def toolSystemText (system reasoning : String) : String :=
  system ++ "\nHere is my reasoning:\n" ++ reasoning ++
  "\n\nBased on this reasoning, the appropriate tools are used next.\n"

/-! ## The four graph nodes -/

/-- `reason_about_request` (agent.py lines 288-356).  Returns the (possibly
mutated, by `messages.append(direct_response)`) base state together with the
returned update dict; note the update repeats the whole message list, which
the `operator.add` channel then appends. -/
def reason_about_request (cfg : AgentCfg) (or : Oracles) (s : AgentState) :
    AgentState × StateUpdate :=
  let msgs := s.messages
  let user_query :=
    (((msgs.filter (fun m => m.role == Role.user)).getLast?).map Message.content).getD ""
  let raw := or.reasonO (systemMsg reasoningSystem :: msgs)
  let reasoning := (extractBlock "reasoning" raw).getD "No explicit reasoning provided."
  let ns := (extractBlock "decision" raw).getD "use_tools"
  let base :=
    if ns = "respond_directly" then
      let a := or.modelO (systemMsg (cfg.system ++ directSuffix) :: msgs)
      msgs ++ [assistantMsg a.content a.tool_calls]
    else msgs
  ({ s with messages := base },
   { messages := base
     reasoning_output := some reasoning
     next_step := some ns
     tool_history := []
     has_used_tools := some false
     user_query := some user_query })

/-- The ledger `call_openai` leaves behind and the message list it hands to
the model: when a system prompt is configured and the ledger already holds a
system entry, that entry is replaced in place (`messages[i] = SystemMessage(...)`,
mutating the shared list); otherwise a system message is prepended to the
model input only. -/
def replaceFirstSystem : List Message → String → List Message
  | [], _ => []
  | m :: rest, c =>
    if m.role == Role.system then systemMsg c :: rest
    else m :: replaceFirstSystem rest c

/-- The pair (ledger after `call_openai`'s in-place edits, model input). -/
def llmContext (cfg : AgentCfg) (s : AgentState) : List Message × List Message :=
  if cfg.system = "" then (s.messages, s.messages)
  else
    let tool_system := toolSystemText cfg.system (s.reasoning_output.getD "")
    if s.messages.any (fun m => m.role == Role.system) then
      let base := replaceFirstSystem s.messages tool_system
      (base, base)
    else (s.messages, systemMsg tool_system :: s.messages)

/-- The message list `call_openai` invokes the model on. -/
def llmInput (cfg : AgentCfg) (s : AgentState) : List Message :=
  (llmContext cfg s).2

/-- `call_openai` (agent.py lines 377-412). -/
def call_openai (cfg : AgentCfg) (or : Oracles) (s : AgentState) :
    AgentState × StateUpdate :=
  let base := (llmContext cfg s).1
  let a := or.modelO (llmInput cfg s)
  ({ s with messages := base },
   { messages := [assistantMsg a.content a.tool_calls]
     reasoning_output := some (s.reasoning_output.getD "")
     next_step := s.next_step
     tool_history := s.tool_history
     has_used_tools := some (s.has_used_tools.getD false)
     user_query := some (s.user_query.getD "") })

/-- The tool calls the execution node answers:
`state['messages'][-1].tool_calls`.  (In Python a missing last message or a
message class without the attribute would raise; inside the graph the node
is only entered right after an assistant message carrying tool calls, so the
empty-list default is never observable there.) -/
def pendingCalls (s : AgentState) : List ToolCall :=
  match s.messages.getLast? with
  | some m => m.tool_calls
  | none => []

/-- The per-call loop body of `take_action`: unknown tool names yield the
fixed retry sentinel, a raising handler yields the "Error executing tool"
text, a successful call records a `ToolRecord` in the history. -/
def execCalls (tools : String → Option (String → Except String String)) :
    List ToolCall → List ToolRecord → List Message × List ToolRecord
  | [], hist => ([], hist)
  | t :: ts, hist =>
    match tools t.name with
    | none =>
      let r := "Invalid tool name: " ++ t.name ++ ". Retry."
      let p := execCalls tools ts hist
      (toolMsg t.id t.name r :: p.1, p.2)
    | some handler =>
      match handler t.args with
      | .ok v =>
        let p := execCalls tools ts (hist ++ [⟨t.name, t.args, v⟩])
        (toolMsg t.id t.name v :: p.1, p.2)
      | .error e =>
        let r := "Error executing tool: " ++ e
        let p := execCalls tools ts hist
        (toolMsg t.id t.name r :: p.1, p.2)

/-- The tool_result content the loop produces for one request, taken on its
own. -/
def callResult (tools : String → Option (String → Except String String))
    (t : ToolCall) : String :=
  match tools t.name with
  | none => "Invalid tool name: " ++ t.name ++ ". Retry."
  | some handler =>
    match handler t.args with
    | .ok v => v
    | .error e => "Error executing tool: " ++ e

/-- `take_action` (agent.py lines 414-449).  The base state's tool_history is
the mutated list (Python appends to the state's own list), the update repeats
it, and the update's messages are exactly the ToolMessages, in request
order. -/
def take_action (cfg : AgentCfg) (s : AgentState) : AgentState × StateUpdate :=
  let p := execCalls cfg.tools (pendingCalls s) s.tool_history
  ({ s with tool_history := p.2 },
   { messages := p.1
     reasoning_output := s.reasoning_output
     next_step := s.next_step
     tool_history := p.2
     has_used_tools := some true
     user_query := some (s.user_query.getD "") })

/-- The ToolMessages `take_action` appends to the ledger. -/
def executeResults (cfg : AgentCfg) (s : AgentState) : List Message :=
  (take_action cfg s).2.messages

/-! ## finalize_response (agent.py lines 451-517) -/

/-- One line pair of the finalization prompt: argument text truncated to its
first 100 characters and result text to its first 300, "..." appended when
longer. -/
def renderEntryLine (i : Nat) (t : ToolRecord) : String :=
  let args_str := if t.args.length > 100 then t.args.take 100 ++ "..." else t.args
  let result_str := if t.result.length > 300 then t.result.take 300 ++ "..." else t.result
  "\n" ++ toString (i + 1) ++ ". Used " ++ t.tool ++ " with args: " ++ args_str ++
  "\n" ++ "   Result: " ++ result_str ++ "\n"

/-- The `for i, tool in enumerate(tool_history)` accumulation. -/
def entryLines : Nat → List ToolRecord → String
  | _, [] => ""
  | i, t :: ts => renderEntryLine i t ++ entryLines (i + 1) ts

/-- The fixed head of the finalization prompt around the user query and the
recorded reasoning. -/
def finalizationHead (user_query reasoning : String) : String :=
  "\nYour job is to respond to this user query about Budapest:\n\"" ++ user_query ++
  "\"\n\nHere is my analysis of what they are asking:\n" ++ reasoning ++
  "\n\nInformation was gathered using these tools:\n"

/-- The fixed tail of the finalization prompt (formatting guidelines). -/
def finalizationTail : String :=
  "\nPlease create a helpful, informative response that answers their question.\n" ++
  "Use emojis for routes, mention web search for attractions, answer in the " ++
  "language of the query, end with 1-2 follow-up questions.\n"

/-- The whole finalization prompt handed to `finalize_model`. -/
def finalizationPrompt (user_query reasoning : String)
    (hist : List ToolRecord) : String :=
  finalizationHead user_query reasoning ++ entryLines 0 hist ++ finalizationTail

/-- `finalize_response`.  Without tool use the node returns the state itself
as its update (`return state`); with tool use it builds the finalization
prompt and appends the finalize model's answer. -/
def finalize_response (cfg : AgentCfg) (or : Oracles) (s : AgentState) :
    AgentState × StateUpdate :=
  if s.has_used_tools.getD false then
    let fp := finalizationPrompt (s.user_query.getD "") (s.reasoning_output.getD "")
      s.tool_history
    let final := assistantMsg (or.finalizeO [systemMsg cfg.system, userMsg fp]) []
    (s, { messages := s.messages ++ [final]
          reasoning_output := some (s.reasoning_output.getD "")
          next_step := s.next_step
          tool_history := s.tool_history
          has_used_tools := some true
          user_query := some (s.user_query.getD "") })
  else
    (s, { messages := s.messages
          reasoning_output := s.reasoning_output
          next_step := s.next_step
          tool_history := s.tool_history
          has_used_tools := s.has_used_tools
          user_query := s.user_query })

/-! ## The graph (Agent.__init__, agent.py lines 242-286) -/

/-- The four nodes of the compiled StateGraph. -/
inductive GNode where
  | reason
  | llm
  | action
  | finalize
deriving DecidableEq, Repr

/-- Executing one node: the channel merge of the node's update into the
(possibly mutated) base state. -/
def applyNode (cfg : AgentCfg) (or : Oracles) : GNode → AgentState → AgentState
  | .reason, s => let p := reason_about_request cfg or s; applyUpdate p.1 p.2
  | .llm, s => let p := call_openai cfg or s; applyUpdate p.1 p.2
  | .action, s => let p := take_action cfg s; applyUpdate p.1 p.2
  | .finalize, s => let p := finalize_response cfg or s; applyUpdate p.1 p.2

/-- `determine_next_step`. -/
def determine_next_step (s : AgentState) : String := s.next_step.getD "use_tools"

/-- `exists_action`: `hasattr(result, 'tool_calls') and len(result.tool_calls) > 0`
on the last message (`hasattr` holds exactly for AIMessage). -/
def exists_action (s : AgentState) : Bool :=
  match s.messages.getLast? with
  | some m => m.role == Role.assistant && !m.tool_calls.isEmpty
  | none => false

/-- `should_continue`: same test as `exists_action`, evaluated after the
action node. -/
def should_continue (s : AgentState) : Bool :=
  match s.messages.getLast? with
  | some m => m.role == Role.assistant && !m.tool_calls.isEmpty
  | none => false

/-- How a graph invocation fails: the recursion limit was exceeded
(GraphRecursionError), or a conditional edge returned a branch label absent
from its path map (reachable when the reasoning model emits a decision block
that is neither "use_tools" nor "respond_directly"). -/
inductive GraphErr where
  | recursion
  | badBranch : String → GraphErr
deriving DecidableEq, Repr

/-- The successor of a node, per the conditional edges of `Agent.__init__`;
`none` is END. -/
def nextNode : GNode → AgentState → Except GraphErr (Option GNode)
  | .reason, s =>
    let d := determine_next_step s
    if d = "use_tools" then .ok (some .llm)
    else if d = "respond_directly" then .ok none
    else .error (.badBranch d)
  | .llm, s => .ok (some (if exists_action s then .action else .finalize))
  | .action, s => .ok (some (if should_continue s then .llm else .finalize))
  | .finalize, _ => .ok none

/-- The graph's superstep loop with the recursion limit as fuel: each node
execution consumes one unit; running out is the GraphRecursionError. -/
def runGraph (cfg : AgentCfg) (or : Oracles) :
    Nat → GNode → AgentState → Except GraphErr AgentState
  | 0, _, _ => .error .recursion
  | fuel + 1, n, s =>
    let s2 := applyNode cfg or n s
    match nextNode n s2 with
    | .error e => .error e
    | .ok none => .ok s2
    | .ok (some n2) => runGraph cfg or fuel n2 s2

/-- `budapest_agent.graph.invoke(input, {"recursion_limit": limit})`: the run
starts at the entry point `reason`. -/
def invokeGraph (cfg : AgentCfg) (or : Oracles) (limit : Nat)
    (s : AgentState) : Except GraphErr AgentState :=
  runGraph cfg or limit .reason s

/-! ## The app layer (app.py chat tab, lines 196-322) -/

/-- `str(e)` for the two graph failure modes; the recursion text models
langgraph's fixed GraphRecursionError message. -/
def graphErrText : GraphErr → String
  | .recursion => "Recursion limit of 15 reached without hitting a stop condition."
  | .badBranch b => "Branch not found: " ++ b

/-- One line of the tool-usage summary the app attaches to the response.
(`attraction_info_tool` has a special display; arguments are carried as
their rendered text, so the dict-shaped special case collapses into the
generic one.) -/
def summaryLine (tc : ToolCall) : String :=
  if tc.name = "attraction_info_tool" then "🔍 **Web keresés**: " ++ tc.args
  else
    let arg_str := if tc.args.length > 50 then tc.args.take 50 ++ "..." else tc.args
    "🛠️ **" ++ tc.name ++ "**(" ++ arg_str ++ ")"

/-- The tool summary collected from the result's messages, in ledger
order. -/
def toolSummary (msgs : List Message) : List String :=
  (msgs.map (fun m =>
    if m.role == Role.assistant && !m.tool_calls.isEmpty then
      m.tool_calls.map summaryLine
    else [])).flatten

/-- The assistant message the app appends on a successful run: the last
AIMessage of the result (or the fixed apology), with the tool-usage section
attached when any tool was called. -/
def responseFromResult (r : AgentState) : Message :=
  let ai := r.messages.filter (fun m => m.role == Role.assistant)
  let final := ai.getLast?.getD
    (assistantMsg "I am sorry, but I encountered an issue processing your request." [])
  let summary := toolSummary r.messages
  if summary.isEmpty then assistantMsg final.content []
  else
    assistantMsg (final.content ++ "\n\n---\n### Használt eszközök:\n" ++
      String.intercalate "\n" summary) []

/-- The graph input the app builds: the chat history (ending in the pending
user message) plus the initial channel values.  The extra keys "reasoning"
and "needs_more_tools" the app passes are not channels of `AgentState` and
are dropped. -/
def initState (history : List Message) (q : String) : AgentState :=
  { messages := history
    reasoning_output := none
    next_step := none
    tool_history := []
    has_used_tools := none
    user_query := some q }

/-- One chat turn of app.py: invoke the graph on the history; on success
append the extracted response, on any exception append the fixed-format
error message `AIMessage(content=f"Sajnos hiba történt: {str(e)}")`. -/
def chatTurn (cfg : AgentCfg) (or : Oracles) (limit : Nat)
    (history : List Message) (q : String) : List Message :=
  match invokeGraph cfg or limit (initState history q) with
  | .ok r => history ++ [responseFromResult r]
  | .error e => history ++ [assistantMsg ("Sajnos hiba történt: " ++ graphErrText e) []]

/-! ## The execution node answers each request independently and in order -/

theorem execCalls_fst (tools : String → Option (String → Except String String))
    (l : List ToolCall) : ∀ hist, (execCalls tools l hist).1 =
      l.map (fun t => toolMsg t.id t.name (callResult tools t)) := by
  induction l with
  | nil => intro hist; rfl
  | cons t ts ih =>
    intro hist
    cases h : tools t.name with
    | none => simp [execCalls, callResult, h, ih]
    | some handler =>
      cases hv : handler t.args with
      | ok v => simp [execCalls, callResult, h, hv, ih]
      | error e => simp [execCalls, callResult, h, hv, ih]

/-- Claim C4: the execution step produces exactly one tool_result Message per
invocation request of the batch, in request order, each carrying the
originating request's id in `tool_call_id`, and all of them are appended to
the ledger by the action node before the loop moves on. -/
theorem execute_one_result_per_request (cfg : AgentCfg) (or : Oracles)
    (s : AgentState) :
    executeResults cfg s =
      (pendingCalls s).map (fun t => toolMsg t.id t.name (callResult cfg.tools t))
    ∧ (executeResults cfg s).length = (pendingCalls s).length
    ∧ (∀ i : Nat, (executeResults cfg s)[i]?.map Message.tool_call_id =
        ((pendingCalls s)[i]?).map (fun t => some t.id))
    ∧ (applyNode cfg or .action s).messages = s.messages ++ executeResults cfg s := by
  have he : executeResults cfg s =
      (pendingCalls s).map (fun t => toolMsg t.id t.name (callResult cfg.tools t)) := by
    simp [executeResults, take_action, execCalls_fst]
  refine ⟨he, ?_, ?_, ?_⟩
  · rw [he, List.length_map]
  · intro i
    rw [he]
    cases h : (pendingCalls s)[i]? <;> simp [h, toolMsg]
  · simp [applyNode, take_action, applyUpdate, executeResults]

theorem executeResults_eq (cfg : AgentCfg) (s : AgentState) :
    executeResults cfg s =
      (pendingCalls s).map (fun t => toolMsg t.id t.name (callResult cfg.tools t)) := by
  simp [executeResults, take_action, execCalls_fst]

theorem applyNode_action_messages (cfg : AgentCfg) (or : Oracles) (s : AgentState) :
    (applyNode cfg or .action s).messages = s.messages ++ executeResults cfg s := by
  simp [applyNode, take_action, applyUpdate, executeResults]

theorem should_continue_of_last_tool (s : AgentState) (m : Message)
    (hm : s.messages.getLast? = some m) (hr : m.role = Role.tool) :
    should_continue s = false := by
  unfold should_continue
  rw [hm]
  simp [hr]

theorem runGraph_finalize_ok (cfg : AgentCfg) (or : Oracles) (f : Nat)
    (s : AgentState) :
    runGraph cfg or (f + 1) .finalize s = .ok (applyNode cfg or .finalize s) := by
  simp [runGraph, nextNode]

theorem should_continue_action (cfg : AgentCfg) (or : Oracles) (s : AgentState)
    (h : pendingCalls s ≠ []) :
    should_continue (applyNode cfg or .action s) = false := by
  obtain ⟨L, c, hlc⟩ := (List.eq_nil_or_concat (pendingCalls s)).resolve_left h
  apply should_continue_of_last_tool _
    (toolMsg c.id c.name (callResult cfg.tools c)) _ rfl
  rw [applyNode_action_messages, executeResults_eq, hlc]
  simp [List.concat_eq_append, ← List.append_assoc]

theorem runGraph_action_ok (cfg : AgentCfg) (or : Oracles) (f : Nat)
    (s : AgentState) (h : pendingCalls s ≠ []) :
    runGraph cfg or (f + 2) .action s =
      .ok (applyNode cfg or .finalize (applyNode cfg or .action s)) := by
  have hsc := should_continue_action cfg or s h
  show runGraph cfg or (f + 1 + 1) .action s = _
  simp only [runGraph, nextNode, hsc]
  simp [runGraph_finalize_ok cfg or f (applyNode cfg or .action s)]

theorem applyNode_llm_messages (cfg : AgentCfg) (or : Oracles) (s : AgentState) :
    (applyNode cfg or .llm s).messages =
      (llmContext cfg s).1 ++
        [assistantMsg (or.modelO (llmInput cfg s)).content
          (or.modelO (llmInput cfg s)).tool_calls] := by
  simp [applyNode, call_openai, applyUpdate]

theorem exists_action_llm (cfg : AgentCfg) (or : Oracles) (s : AgentState) :
    exists_action (applyNode cfg or .llm s) =
      !(or.modelO (llmInput cfg s)).tool_calls.isEmpty := by
  unfold exists_action
  rw [applyNode_llm_messages, List.getLast?_concat]
  simp [assistantMsg]

theorem pendingCalls_llm (cfg : AgentCfg) (or : Oracles) (s : AgentState) :
    pendingCalls (applyNode cfg or .llm s) =
      (or.modelO (llmInput cfg s)).tool_calls := by
  unfold pendingCalls
  rw [applyNode_llm_messages, List.getLast?_concat]
  simp [assistantMsg]

theorem runGraph_step (cfg : AgentCfg) (or : Oracles) (f : Nat) (n : GNode)
    (s : AgentState) :
    runGraph cfg or (f + 1) n s =
      match nextNode n (applyNode cfg or n s) with
      | .error e => .error e
      | .ok none => .ok (applyNode cfg or n s)
      | .ok (some n2) => runGraph cfg or f n2 (applyNode cfg or n s) := rfl

theorem runGraph_llm_ok (cfg : AgentCfg) (or : Oracles) (f : Nat)
    (s : AgentState) : ∃ r, runGraph cfg or (f + 3) .llm s = .ok r := by
  cases h : exists_action (applyNode cfg or .llm s) with
  | true =>
    have hpend : pendingCalls (applyNode cfg or .llm s) ≠ [] := by
      rw [pendingCalls_llm]
      rw [exists_action_llm] at h
      simpa using h
    have hnext : nextNode .llm (applyNode cfg or .llm s) = .ok (some .action) := by
      simp [nextNode, h]
    refine ⟨applyNode cfg or .finalize
      (applyNode cfg or .action (applyNode cfg or .llm s)), ?_⟩
    show runGraph cfg or (f + 2 + 1) .llm s = _
    rw [runGraph_step, hnext]
    exact runGraph_action_ok cfg or f _ hpend
  | false =>
    have hnext : nextNode .llm (applyNode cfg or .llm s) = .ok (some .finalize) := by
      simp [nextNode, h]
    refine ⟨applyNode cfg or .finalize (applyNode cfg or .llm s), ?_⟩
    show runGraph cfg or (f + 2 + 1) .llm s = _
    rw [runGraph_step, hnext]
    exact runGraph_finalize_ok cfg or (f + 1) _

theorem invokeGraph_no_recursion (cfg : AgentCfg) (or : Oracles) (f : Nat)
    (s : AgentState) : invokeGraph cfg or (f + 4) s ≠ .error .recursion := by
  unfold invokeGraph
  show runGraph cfg or (f + 3 + 1) .reason s ≠ _
  rw [runGraph_step]
  by_cases h1 : determine_next_step (applyNode cfg or .reason s) = "use_tools"
  · have hnext : nextNode .reason (applyNode cfg or .reason s) = .ok (some .llm) := by
      simp [nextNode, h1]
    rw [hnext]
    obtain ⟨r, hr⟩ := runGraph_llm_ok cfg or f (applyNode cfg or .reason s)
    simp only []
    rw [hr]
    simp
  · by_cases h2 : determine_next_step (applyNode cfg or .reason s) = "respond_directly"
    · have hnext : nextNode .reason (applyNode cfg or .reason s) = .ok none := by
        simp [nextNode, h1, h2]
      rw [hnext]
      simp
    · have hnext : nextNode .reason (applyNode cfg or .reason s) =
          .error (.badBranch (determine_next_step (applyNode cfg or .reason s))) := by
        simp [nextNode, h1, h2]
      rw [hnext]
      simp

theorem executeResults_getElem (cfg : AgentCfg) (s : AgentState) (j : Nat) :
    (executeResults cfg s)[j]? = ((pendingCalls s)[j]?).map
      (fun u => toolMsg u.id u.name (callResult cfg.tools u)) := by
  rw [executeResults_eq]
  exact List.getElem?_map _ _ _

/-- Claim C2: when the handler of a request in a batch raises, the execution
step converts the exception into an error-message tool_result for that
request, every request of the batch (the raising one included) still gets
exactly one answer, and the graph proceeds to a successful terminal step
instead of crashing. -/
theorem capability_error_contained (cfg : AgentCfg) (or : Oracles)
    (s : AgentState) (i : Nat) (t : ToolCall)
    (handler : String → Except String String) (e : String)
    (ht : (pendingCalls s)[i]? = some t)
    (hh : cfg.tools t.name = some handler)
    (he : handler t.args = .error e) :
    (executeResults cfg s)[i]? =
      some (toolMsg t.id t.name ("Error executing tool: " ++ e))
    ∧ (executeResults cfg s).length = (pendingCalls s).length
    ∧ (∀ j : Nat, (executeResults cfg s)[j]? = ((pendingCalls s)[j]?).map
        (fun u => toolMsg u.id u.name (callResult cfg.tools u)))
    ∧ ∀ f : Nat, ∃ r, runGraph cfg or (f + 2) .action s = .ok r := by
  refine ⟨?_, ?_, executeResults_getElem cfg s, ?_⟩
  · rw [executeResults_getElem cfg s i, ht]
    simp [callResult, hh, he]
  · rw [executeResults_eq, List.length_map]
  · intro f
    have hne : pendingCalls s ≠ [] := by
      intro hnil
      rw [hnil] at ht
      simp at ht
    exact ⟨_, runGraph_action_ok cfg or f s hne⟩

/-- A registry with one raising tool and one succeeding tool. -/
def toolsW : String → Option (String → Except String String) := fun n =>
  if n = "boom" then some (fun _ => .error "fail")
  else if n = "echo" then some (fun a => .ok a)
  else none

/-- An agent over `toolsW` with an empty system prompt. -/
def cfgW : AgentCfg := { system := "", tools := toolsW }

/-- Oracles that answer with empty text and no tool calls. -/
def orW : Oracles :=
  { reasonO := fun _ => ""
    modelO := fun _ => { content := "", tool_calls := [] }
    finalizeO := fun _ => "" }

/-- A state whose last message requests the raising tool and then the
succeeding tool. -/
def stateW : AgentState :=
  initState [assistantMsg "" [⟨"boom", "x", "id1"⟩, ⟨"echo", "y", "id2"⟩]] ""

theorem capability_error_contained_witness :
    (executeResults cfgW stateW)[0]? =
      some (toolMsg "id1" "boom" ("Error executing tool: " ++ "fail"))
    ∧ (executeResults cfgW stateW).length = 2
    ∧ (executeResults cfgW stateW)[1]? = some (toolMsg "id2" "echo" "y") := by
  have h := capability_error_contained cfgW orW stateW 0 ⟨"boom", "x", "id1"⟩
    (fun _ => .error "fail") "fail" (by decide) (by simp [cfgW, toolsW]) rfl
  refine ⟨h.1, h.2.1.trans (by decide), ?_⟩
  rw [h.2.2.1 1]
  decide

/-- Claim C3: a request whose capability name is absent from the registry is
answered with the fixed "Invalid tool name ... Retry." sentinel tool_result,
the rest of the batch is still answered (one result per request), and the
loop proceeds to a successful terminal step instead of aborting. -/
theorem unknown_capability_sentinel (cfg : AgentCfg) (or : Oracles)
    (s : AgentState) (i : Nat) (t : ToolCall)
    (ht : (pendingCalls s)[i]? = some t)
    (hh : cfg.tools t.name = none) :
    (executeResults cfg s)[i]? =
      some (toolMsg t.id t.name ("Invalid tool name: " ++ t.name ++ ". Retry."))
    ∧ (executeResults cfg s).length = (pendingCalls s).length
    ∧ ∀ f : Nat, ∃ r, runGraph cfg or (f + 2) .action s = .ok r := by
  refine ⟨?_, ?_, ?_⟩
  · rw [executeResults_getElem cfg s i, ht]
    simp [callResult, hh]
  · rw [executeResults_eq, List.length_map]
  · intro f
    have hne : pendingCalls s ≠ [] := by
      intro hnil
      rw [hnil] at ht
      simp at ht
    exact ⟨_, runGraph_action_ok cfg or f s hne⟩

/-- A state whose last message requests an unregistered tool and then a
registered one. -/
def stateW2 : AgentState :=
  initState [assistantMsg "" [⟨"nope", "z", "id9"⟩, ⟨"echo", "w", "id10"⟩]] ""

theorem unknown_capability_sentinel_witness :
    (executeResults cfgW stateW2)[0]? =
      some (toolMsg "id9" "nope" ("Invalid tool name: " ++ "nope" ++ ". Retry."))
    ∧ (executeResults cfgW stateW2).length = 2 := by
  have h := unknown_capability_sentinel cfgW orW stateW2 0 ⟨"nope", "z", "id9"⟩
    (by decide) (by simp [cfgW, toolsW])
  exact ⟨h.1, h.2.1.trans (by decide)⟩

/-- Claim C1: every chat turn reaches a terminal state — the ledger is
extended by exactly one assistant message; with at least 4 units of step
budget (in particular with the configured recursion_limit of 15) the graph
never hits the recursion limit, whatever the oracles answer; and whenever an
invocation does exhaust the step budget the turn ends in the aborted state,
appending the fixed budget-exceeded assistant message. -/
theorem session_terminates_within_budget (cfg : AgentCfg) (or : Oracles)
    (history : List Message) (q : String) (fuel : Nat) :
    (∃ m, chatTurn cfg or fuel history q = history ++ [m]
        ∧ m.role = Role.assistant)
    ∧ (∀ f : Nat, invokeGraph cfg or (f + 4) (initState history q) ≠
        .error .recursion)
    ∧ invokeGraph cfg or 15 (initState history q) ≠ .error .recursion
    ∧ (invokeGraph cfg or fuel (initState history q) = .error .recursion →
        chatTurn cfg or fuel history q = history ++
          [assistantMsg ("Sajnos hiba történt: " ++ graphErrText .recursion) []]) := by
  refine ⟨?_, fun f => invokeGraph_no_recursion cfg or f _, ?_, ?_⟩
  · unfold chatTurn
    cases h : invokeGraph cfg or fuel (initState history q) with
    | ok r =>
      refine ⟨responseFromResult r, rfl, ?_⟩
      unfold responseFromResult
      dsimp only
      split <;> rfl
    | error e => exact ⟨_, rfl, rfl⟩
  · exact invokeGraph_no_recursion cfg or 11 _
  · intro h
    unfold chatTurn
    rw [h]

theorem session_terminates_within_budget_witness :
    chatTurn cfgW orW 0 [] "" =
      [assistantMsg ("Sajnos hiba történt: " ++ graphErrText .recursion) []]
    ∧ invokeGraph cfgW orW 15 (initState [] "") ≠ .error .recursion := by
  have h0 := session_terminates_within_budget cfgW orW [] "" 0
  refine ⟨?_, h0.2.2.1⟩
  have := h0.2.2.2 rfl
  simpa using this

/-! ## The ledger is append-only -/

/-- A ledger holding no system entry.  Every session the app starts
satisfies this: the chat history holds only user and assistant messages, and
the loop's nodes append only assistant and tool messages (the system turns
the nodes synthesize are prepended to the local model input, never stored). -/
def noSystemInLedger (ms : List Message) : Prop :=
  ∀ m ∈ ms, m.role ≠ Role.system

instance (ms : List Message) : Decidable (noSystemInLedger ms) :=
  List.decidableBAll _ ms

/-- The ledger left by `reason_about_request` before the channel merge:
unchanged, or with the direct response appended. -/
def reasonBase (cfg : AgentCfg) (or : Oracles) (s : AgentState) : List Message :=
  let raw := or.reasonO (systemMsg reasoningSystem :: s.messages)
  let ns := (extractBlock "decision" raw).getD "use_tools"
  if ns = "respond_directly" then
    let a := or.modelO (systemMsg (cfg.system ++ directSuffix) :: s.messages)
    s.messages ++ [assistantMsg a.content a.tool_calls]
  else s.messages

theorem applyNode_reason_messages (cfg : AgentCfg) (or : Oracles)
    (s : AgentState) : (applyNode cfg or .reason s).messages =
      reasonBase cfg or s ++ reasonBase cfg or s := by
  simp only [applyNode, reason_about_request, applyUpdate, reasonBase]

theorem reasonBase_extends (cfg : AgentCfg) (or : Oracles) (s : AgentState) :
    ∃ extra : List Message, reasonBase cfg or s = s.messages ++ extra ∧
      ∀ m ∈ extra, m.role = Role.assistant := by
  unfold reasonBase
  dsimp only
  split
  · exact ⟨_, rfl, by simp [assistantMsg]⟩
  · exact ⟨[], by simp, by simp⟩

theorem noSystem_append (l1 l2 : List Message) (h1 : noSystemInLedger l1)
    (h2 : noSystemInLedger l2) : noSystemInLedger (l1 ++ l2) := by
  intro m hm
  rcases List.mem_append.1 hm with h | h
  · exact h1 m h
  · exact h2 m h

theorem any_system_eq_false (ms : List Message) (h : noSystemInLedger ms) :
    (ms.any fun m => m.role == Role.system) = false := by
  rw [Bool.eq_false_iff]
  intro hany
  rw [List.any_eq_true] at hany
  obtain ⟨m, hm, hsys⟩ := hany
  exact h m hm (by simpa using hsys)

theorem llmContext_base_of_noSystem (cfg : AgentCfg) (s : AgentState)
    (h : noSystemInLedger s.messages) : (llmContext cfg s).1 = s.messages := by
  unfold llmContext
  by_cases hc : cfg.system = ""
  · simp [hc]
  · simp [hc, any_system_eq_false _ h]

theorem applyNode_finalize_messages (cfg : AgentCfg) (or : Oracles)
    (s : AgentState) : (applyNode cfg or .finalize s).messages =
      if s.has_used_tools.getD false then
        s.messages ++ (s.messages ++
          [assistantMsg (or.finalizeO [systemMsg cfg.system,
            userMsg (finalizationPrompt (s.user_query.getD "")
              (s.reasoning_output.getD "") s.tool_history)]) []])
      else s.messages ++ s.messages := by
  simp only [applyNode, finalize_response, applyUpdate]
  split <;> rfl

/-- Each node of the loop only appends to the ledger (when the ledger holds
no system entry, as every app-started session's does), and what it appends
holds no system entry either. -/
theorem node_extends (cfg : AgentCfg) (or : Oracles) (n : GNode)
    (s : AgentState) (h : noSystemInLedger s.messages) :
    s.messages <+: (applyNode cfg or n s).messages
    ∧ noSystemInLedger (applyNode cfg or n s).messages := by
  cases n with
  | reason =>
    obtain ⟨extra, heq, hex⟩ := reasonBase_extends cfg or s
    have hexns : noSystemInLedger extra := by
      intro m hm
      rw [hex m hm]
      simp
    rw [applyNode_reason_messages, heq]
    constructor
    · exact ⟨extra ++ (s.messages ++ extra), by simp⟩
    · exact noSystem_append _ _ (noSystem_append _ _ h hexns)
        (noSystem_append _ _ h hexns)
  | llm =>
    rw [applyNode_llm_messages, llmContext_base_of_noSystem cfg s h]
    constructor
    · exact ⟨_, rfl⟩
    · refine noSystem_append _ _ h ?_
      intro m hm
      rw [List.mem_singleton] at hm
      rw [hm]
      simp [assistantMsg]
  | action =>
    rw [applyNode_action_messages, executeResults_eq]
    constructor
    · exact ⟨_, rfl⟩
    · refine noSystem_append _ _ h ?_
      intro m hm
      rw [List.mem_map] at hm
      obtain ⟨t, _, ht⟩ := hm
      rw [← ht]
      simp [toolMsg]
  | finalize =>
    rw [applyNode_finalize_messages]
    split
    · constructor
      · exact ⟨_, rfl⟩
      · refine noSystem_append _ _ h (noSystem_append _ _ h ?_)
        intro m hm
        rw [List.mem_singleton] at hm
        rw [hm]
        simp [assistantMsg]
    · exact ⟨⟨_, rfl⟩, noSystem_append _ _ h h⟩

/-- Along any successful run, the starting ledger stays a prefix of the
final one. -/
theorem run_extends (cfg : AgentCfg) (or : Oracles) :
    ∀ fuel (n : GNode) (s r : AgentState), noSystemInLedger s.messages →
      runGraph cfg or fuel n s = .ok r →
      s.messages <+: r.messages ∧ noSystemInLedger r.messages := by
  intro fuel
  induction fuel with
  | zero =>
    intro n s r _ hrun
    simp [runGraph] at hrun
  | succ f ih =>
    intro n s r hns hrun
    rw [runGraph_step] at hrun
    obtain ⟨hpre, hns2⟩ := node_extends cfg or n s hns
    cases hnext : nextNode n (applyNode cfg or n s) with
    | error e =>
      rw [hnext] at hrun
      simp at hrun
    | ok o =>
      cases o with
      | none =>
        rw [hnext] at hrun
        simp only [Except.ok.injEq] at hrun
        rw [← hrun]
        exact ⟨hpre, hns2⟩
      | some n2 =>
        rw [hnext] at hrun
        simp only [] at hrun
        obtain ⟨hp2, hns3⟩ := ih n2 _ r hns2 hrun
        exact ⟨hpre.trans hp2, hns3⟩

/-- Claim C5: for every session ledger without system entries (every ledger
the app hands to the graph), each of the four nodes of the loop only
appends Messages — the incoming ledger is a prefix of the outgoing one, so
no entry is removed, mutated in place or reordered — and along any whole
graph run the initial ledger stays a prefix of the final one. -/
theorem ledger_append_only (cfg : AgentCfg) (or : Oracles) (s : AgentState)
    (h : noSystemInLedger s.messages) :
    (∀ n : GNode, s.messages <+: (applyNode cfg or n s).messages)
    ∧ (∀ fuel : Nat, ∀ n : GNode, ∀ r : AgentState,
        runGraph cfg or fuel n s = .ok r → s.messages <+: r.messages) :=
  ⟨fun n => (node_extends cfg or n s h).1,
   fun fuel n r hr => (run_extends cfg or fuel n s r h hr).1⟩

theorem ledger_append_only_witness :
    [userMsg "hi"] <+:
      (applyNode cfgW orW .reason (initState [userMsg "hi"] "hi")).messages := by
  have h := ledger_append_only cfgW orW (initState [userMsg "hi"] "hi") (by decide)
  exact h.1 .reason

/-- Claim C6: whenever the decide step's raw model output carries no
invocation requests (no parseable tool_calls, whatever its text), the loop
classifies it as final — it proceeds to the finalize node and terminates
successfully without further decide/execute rounds — and the raw output is
kept in the ledger, never dropped. -/
theorem unclassifiable_defaults_to_final (cfg : AgentCfg) (or : Oracles)
    (s : AgentState) (f : Nat)
    (h : (or.modelO (llmInput cfg s)).tool_calls = []) :
    ∃ r, runGraph cfg or (f + 2) .llm s = .ok r ∧
      assistantMsg (or.modelO (llmInput cfg s)).content [] ∈ r.messages := by
  have hex : exists_action (applyNode cfg or .llm s) = false := by
    rw [exists_action_llm, h]
    rfl
  have hnext : nextNode .llm (applyNode cfg or .llm s) = .ok (some .finalize) := by
    simp [nextNode, hex]
  refine ⟨applyNode cfg or .finalize (applyNode cfg or .llm s), ?_, ?_⟩
  · show runGraph cfg or (f + 1 + 1) .llm s = _
    rw [runGraph_step, hnext]
    exact runGraph_finalize_ok cfg or f _
  · have hmem : assistantMsg (or.modelO (llmInput cfg s)).content [] ∈
        (applyNode cfg or .llm s).messages := by
      rw [applyNode_llm_messages, h]
      simp
    rw [applyNode_finalize_messages]
    split
    · exact List.mem_append.2 (Or.inl hmem)
    · exact List.mem_append.2 (Or.inl hmem)

theorem unclassifiable_defaults_to_final_witness :
    ∃ r, runGraph cfgW orW 2 .llm (initState [userMsg "hi"] "hi") = .ok r ∧
      assistantMsg "" [] ∈ r.messages := by
  have h := unclassifiable_defaults_to_final cfgW orW
    (initState [userMsg "hi"] "hi") 0 rfl
  simpa using h

/-- Claim C7: the classification functions of the decide step are pure
functions of the raw oracle output they inspect — two states agreeing on
their last message are classified identically by both `exists_action` and
`should_continue`. -/
theorem classification_deterministic (s1 s2 : AgentState)
    (h : s1.messages.getLast? = s2.messages.getLast?) :
    exists_action s1 = exists_action s2
    ∧ should_continue s1 = should_continue s2 := by
  unfold exists_action should_continue
  rw [h]
  exact ⟨rfl, rfl⟩

theorem classification_deterministic_witness :
    exists_action (initState [userMsg "a", assistantMsg "x" []] "") =
      exists_action (initState [assistantMsg "x" []] "")
    ∧ should_continue (initState [userMsg "a", assistantMsg "x" []] "") =
      should_continue (initState [assistantMsg "x" []] "") :=
  classification_deterministic _ _ (by decide)

/-! ## The finalization prompt only sees truncated tool history -/

/-- The truncation the spec describes: the first `n` characters, "..."
appended when the text was longer. -/
def truncAt (n : Nat) (s : String) : String :=
  if s.length > n then s.take n ++ "..." else s

/-- A tool-history record reduced to what the spec says the finalizing model
may see: arguments truncated to 100 characters, result to 300. -/
def truncRecord (t : ToolRecord) : ToolRecord :=
  { tool := t.tool, args := truncAt 100 t.args, result := truncAt 300 t.result }

/-- Rendering of one already-truncated entry, following the spec's words
(no further truncation). -/
def renderEntryLineSpec (i : Nat) (t : ToolRecord) : String :=
  "\n" ++ toString (i + 1) ++ ". Used " ++ t.tool ++ " with args: " ++ t.args ++
  "\n" ++ "   Result: " ++ t.result ++ "\n"

/-- Accumulation of the spec-side entry lines. -/
def entryLinesSpec : Nat → List ToolRecord → String
  | _, [] => ""
  | i, t :: ts => renderEntryLineSpec i t ++ entryLinesSpec (i + 1) ts

/-- The finalization context built from truncated records only, following
the spec's words. -/
def finalizationPromptOfTruncated (user_query reasoning : String)
    (hist : List ToolRecord) : String :=
  finalizationHead user_query reasoning ++ entryLinesSpec 0 hist ++ finalizationTail

theorem entryLines_eq_spec :
    ∀ (i : Nat) (hist : List ToolRecord),
      entryLines i hist = entryLinesSpec i (hist.map truncRecord) := by
  intro i hist
  induction hist generalizing i with
  | nil => rfl
  | cons t ts ih =>
    simp only [List.map_cons, entryLines, entryLinesSpec, ih]
    rfl

/-- Claim C10: the context handed to the finalizing model is determined by
the truncated projections of the tool history alone — each entry enters it
with its argument text cut to the first 100 characters and its result text
cut to the first 300 ("..." appended when longer), and nothing beyond those
prefixes can reach the final response. -/
theorem finalize_truncates_tool_history (user_query reasoning : String)
    (hist : List ToolRecord) :
    finalizationPrompt user_query reasoning hist =
      finalizationPromptOfTruncated user_query reasoning (hist.map truncRecord) := by
  unfold finalizationPrompt finalizationPromptOfTruncated
  rw [entryLines_eq_spec]
